import Mathlib

/-!
Verification development for the HSR-Database-Web repository.

The Python sources (src/serve.py, src/build_db.py, src/build_module_dbs.py)
are shallowly embedded below.  Machine floats are modelled by exact
rationals (ℚ); Python `round` (banker's rounding) is modelled exactly on ℚ.
Python strings are modelled by Lean strings / lists of characters, and
`str.strip()` is modelled over the ASCII whitespace characters.
All definitions are structurally recursive so that they evaluate inside
the kernel; recursion over the nested JSON type takes an explicit fuel
argument, with a well-formedness check certifying that a given fuel
covers the document and a theorem showing the choice of sufficient fuel
does not matter.
-/

/-! ## Basic Python-style string helpers -/

/-- ASCII whitespace, as stripped by Python `str.strip()` (the Unicode
whitespace code points beyond ASCII are not modelled). -/
def pyIsSpace (c : Char) : Bool :=
  c = ' ' || c = '\t' || c = '\n' || c = '\x0d' || c = '\x0c' || c = '\x0b'

/-- Python `str.strip()` on the character-list view of a string. -/
def pyStripList (cs : List Char) : List Char :=
  ((cs.dropWhile pyIsSpace).reverse.dropWhile pyIsSpace).reverse

/-- Python `str.strip()`. -/
def pyStrip (s : String) : String :=
  String.mk (pyStripList s.data)

/-- Decimal digit test, matching the regex class `\d` on ASCII input. -/
def isDigitChar (c : Char) : Bool :=
  '0' ≤ c && c ≤ '9'

/-- Numeric value of a list of decimal digits (Python `int` on a digit
string; leading zeros are allowed). -/
def digitsToNat (ds : List Char) : ℕ :=
  ds.foldl (fun acc c => acc * 10 + (c.toNat - '0'.toNat)) 0

/-- Python `s.rstrip("0")` on a character list. -/
def rstripZeros (cs : List Char) : List Char :=
  (cs.reverse.dropWhile (fun c => c = '0')).reverse

/-- Python `s.rstrip(".")` on a character list. -/
def rstripDot (cs : List Char) : List Char :=
  (cs.reverse.dropWhile (fun c => c = '.')).reverse

/-- Python `enumerate` starting at index `i`. -/
def pyEnumerate {α : Type} (i : ℕ) : List α → List (ℕ × α)
  | [] => []
  | a :: as => (i, a) :: pyEnumerate (i + 1) as

/-- Test that a list of keys has no duplicates (used to state that a JSON
object, as produced by Python `json.loads`, has pairwise distinct keys). -/
def nodupKeys : List String → Bool
  | [] => true
  | k :: rest => !(rest.any (fun x => x == k)) && nodupKeys rest

/-! ## Python rounding on ℚ

Python `round` uses round-half-to-even (banker's rounding).  On the exact
rational model this is: take the floor, then resolve the fractional part,
sending an exact tie to the even neighbour. -/

/-- Executable floor of a rational (Int.fdiv is floor division). -/
def ratFloor (q : ℚ) : ℤ :=
  q.num.fdiv q.den

/-- Python `round(q)` : round half to even, as an integer. -/
def pyRoundHalfEven (q : ℚ) : ℤ :=
  if q - ratFloor q < 1/2 then ratFloor q
  else if 1/2 < q - ratFloor q then ratFloor q + 1
  else if ratFloor q % 2 = 0 then ratFloor q else ratFloor q + 1

/-- The rational 10^d, built from natural-number arithmetic. -/
def pow10 (d : ℕ) : ℚ :=
  (((10 : ℕ) ^ d : ℕ) : ℚ)

/-- Python `round(q, d)` for `d ≥ 0` decimal places, on the exact value. -/
def pyRound (q : ℚ) (d : ℕ) : ℚ :=
  (pyRoundHalfEven (q * pow10 d) : ℚ) / pow10 d

/-! ## serve.py : per-level stat interpolation -/

/-- One row of the avatar_promotion table, as consumed by
`build_avatar_level_stats` in src/serve.py (the promotion-cost and
requirement columns play no role in the stat curve and are omitted). -/
structure PromotionRow where
  promotion : Option ℤ
  max_level : Option ℤ
  hp_base : Option ℚ
  hp_add : Option ℚ
  attack_base : Option ℚ
  attack_add : Option ℚ
  defence_base : Option ℚ
  defence_add : Option ℚ
  speed_base : Option ℚ
deriving DecidableEq, Repr

/-- One emitted per-level row of `build_avatar_level_stats`. -/
structure LevelStatRow where
  level : ℕ
  promotion : Option ℤ
  hp : Option ℚ
  attack : Option ℚ
  defence : Option ℚ
  speed : Option ℚ
deriving DecidableEq, Repr

/-- src/serve.py `stat_at_level`: None base propagates, a missing growth
term yields the rounded base, otherwise base + growth * (level - 1)
rounded to 4 decimal places. -/
def stat_at_level (base growth : Option ℚ) (level : ℕ) : Option ℚ :=
  match base with
  | none => none
  | some b =>
    match growth with
    | none => some (pyRound b 4)
    | some g => some (pyRound (b + g * ((level : ℚ) - 1)) 4)

/-- Sort key used by `build_avatar_level_stats`: Python
`int(x.get("max_level") or 0)` (None and 0 both map to 0). -/
def mlKey (p : PromotionRow) : ℤ :=
  p.max_level.getD 0

/-- The breakpoints kept by `build_avatar_level_stats`: those whose
max_level is not None. -/
def validPromotions (promotions : List PromotionRow) : List PromotionRow :=
  promotions.filter (fun p => p.max_level.isSome)

/-- The kept breakpoints sorted ascending by the `mlKey` sort key.
Lean's insertionSort is a stable ascending sort, matching Python
`list.sort(key=...)`. -/
def sortedPromotions (promotions : List PromotionRow) : List PromotionRow :=
  (validPromotions promotions).insertionSort (fun a b => mlKey a ≤ mlKey b)

/-- Stage selection of `build_avatar_level_stats`: the first sorted
breakpoint whose max_level is ≥ the level (Python `next(...)` with a
generator), defaulting to the last breakpoint (`valid[-1]`). -/
def selStage (s0 : PromotionRow) (srest : List PromotionRow) (level : ℕ) : PromotionRow :=
  ((s0 :: srest).find? (fun p => (level : ℤ) ≤ mlKey p)).getD
    ((s0 :: srest).getLast (by simp))

/-- One emitted row of `build_avatar_level_stats` for a given level. -/
def mkLevelRow (s0 : PromotionRow) (srest : List PromotionRow) (level : ℕ) : LevelStatRow :=
  let stage := selStage s0 srest level
  { level := level
    promotion := stage.promotion
    hp := stat_at_level stage.hp_base stage.hp_add level
    attack := stat_at_level stage.attack_base stage.attack_add level
    defence := stat_at_level stage.defence_base stage.defence_add level
    speed := stat_at_level stage.speed_base none level }

/-- src/serve.py `build_avatar_level_stats` (the Python default for
max_level is 80).  Rows without a max_level are dropped, the rest are
stably sorted ascending by max_level, and for each level from 1 to
max_level the selected stage supplies the interpolation parameters.
The sorted list is empty exactly when the filtered list is, so matching
on it reproduces the early `if not valid: return []`. -/
def build_avatar_level_stats (promotions : List PromotionRow) (max_level : ℕ) :
    List LevelStatRow :=
  match sortedPromotions promotions with
  | [] => []
  | s0 :: srest => (List.range' 1 max_level).map (mkLevelRow s0 srest)

/-- Pointwise order on optional stat values: constrains only the case
where both values are present. -/
def optLeQ : Option ℚ → Option ℚ → Prop
  | some x, some y => x ≤ y
  | _, _ => True

instance instDecOptLeQ : (a b : Option ℚ) → Decidable (optLeQ a b)
  | some x, some y => inferInstanceAs (Decidable (x ≤ y))
  | some _, none => inferInstanceAs (Decidable True)
  | none, some _ => inferInstanceAs (Decidable True)
  | none, none => inferInstanceAs (Decidable True)

instance : IsTotal PromotionRow (fun a b => mlKey a ≤ mlKey b) :=
  ⟨fun a b => le_total (mlKey a) (mlKey b)⟩

instance : IsTrans PromotionRow (fun a b => mlKey a ≤ mlKey b) :=
  ⟨fun _ _ _ h h' => le_trans h h'⟩

/-- Two promotion breakpoints with defined max_level and all-zero
(non-negative) growth, whose second stage has a smaller base. -/
def exStageLow : PromotionRow :=
  { promotion := some 0, max_level := some 1, hp_base := some 100, hp_add := some 0,
    attack_base := some 100, attack_add := some 0, defence_base := some 100,
    defence_add := some 0, speed_base := some 100 }

/-- Companion stage to `exStageLow` with a higher ceiling but smaller bases. -/
def exStageHigh : PromotionRow :=
  { promotion := some 1, max_level := some 80, hp_base := some 0, hp_add := some 0,
    attack_base := some 0, attack_add := some 0, defence_base := some 0,
    defence_add := some 0, speed_base := some 0 }

/-- Witness breakpoint for the amended C2 theorem. -/
def exStageW : PromotionRow :=
  { promotion := some 0, max_level := some 20, hp_base := some 50, hp_add := some 3,
    attack_base := some 40, attack_add := some 2, defence_base := some 30,
    defence_add := some 1, speed_base := some 100 }

/-- A single breakpoint whose speed base has more than 4 decimal places. -/
def exSpdStage : PromotionRow :=
  { promotion := some 0, max_level := some 80, hp_base := none, hp_add := none,
    attack_base := none, attack_add := none, defence_base := none,
    defence_add := none, speed_base := some (3/100000) }

/-! ## serve.py : hash-key resolution and text lookup

`hash_text_key` has two implementation paths: the in-process xxhash module
and the external xxhsum binary.  Each is modelled as an optional oracle
String → Option ℕ: the outer Option is availability (module import /
binary on PATH), the inner Option models the try/except and
output-parsing failure paths, and the ℕ is the 64-bit digest whose
decimal rendering becomes the address. -/

structure HashImpls where
  xxh : Option (String → Option ℕ)
  xxhsum : Option (String → Option ℕ)

/-- Both hashing implementation paths unavailable. -/
def noHashImpls : HashImpls :=
  { xxh := none, xxhsum := none }

/-- Python regex `^\d+$` (RAW_HASH_RE) full match on the token. -/
def isRawHash (s : String) : Bool :=
  !s.data.isEmpty && s.data.all isDigitChar

/-- The xxhsum fallback branch of `hash_text_key`. -/
def hashViaXxhsum (impls : HashImpls) (token : String) : Option String :=
  match impls.xxhsum with
  | some g =>
    match g token with
    | some n => some (toString n)
    | none => none
  | none => none

/-- src/serve.py `hash_text_key`: strip the key; empty → unresolved; pure
decimal digits → the token itself is the address; otherwise try the
in-process hash, then the external hasher, else unresolved.  The
`functools.lru_cache` memoization of a pure function is semantically the
identity and is not modelled. -/
def hash_text_key (impls : HashImpls) (raw_key : String) : Option String :=
  let token := pyStrip raw_key
  if token = "" then none
  else if isRawHash token then some token
  else
    match impls.xxh with
    | some f =>
      match f token with
      | some n => some (toString n)
      | none => hashViaXxhsum impls token
    | none => hashViaXxhsum impls token

/-- The text_map table as a lookup: language and address to stored text.
A `some ""` entry models a row whose stored text is the empty string. -/
def TextStore : Type :=
  String → String → Option String

/-- src/serve.py `resolve_text_from_key`: a falsy raw key (None or the
empty string) or an unresolvable key yields no text; otherwise the store
row for (lang, address), if any. -/
def resolve_text_from_key (impls : HashImpls) (store : TextStore) (lang : String)
    (raw_key : Option String) : Option String :=
  match raw_key with
  | none => none
  | some k =>
    if k = "" then none
    else
      match hash_text_key impls k with
      | none => none
      | some h => store lang h

/-- Python truthiness of an optional text: present and non-empty. -/
def truthyText : Option String → Bool
  | some s => !s.isEmpty
  | none => false

/-- src/serve.py `resolve_text_with_fallback`: try the requested language,
then CHS (unless it was the request), then EN (unless it was the request),
each accepted only if Python-truthy; otherwise the supplied fallback
(None by default at the call sites). -/
def resolve_text_with_fallback (impls : HashImpls) (store : TextStore) (lang : String)
    (raw_key : Option String) (fallback : Option String) : Option String :=
  if truthyText (resolve_text_from_key impls store lang raw_key) then
    resolve_text_from_key impls store lang raw_key
  else if truthyText (if lang = "CHS" then none else resolve_text_from_key impls store "CHS" raw_key) then
    (if lang = "CHS" then none else resolve_text_from_key impls store "CHS" raw_key)
  else if truthyText (if lang = "EN" then none else resolve_text_from_key impls store "EN" raw_key) then
    (if lang = "EN" then none else resolve_text_from_key impls store "EN" raw_key)
  else fallback

/-- A store holding an empty-string text for (EN, 123) and a CHS text for
the same address. -/
def exEmptyTextStore : TextStore :=
  fun lang h =>
    if lang = "EN" ∧ h = "123" then some ""
    else if lang = "CHS" ∧ h = "123" then some "chs" else none

/-- A store with a JP text for address 123 and nothing else. -/
def exJpStore : TextStore :=
  fun lang h => if lang = "JP" ∧ h = "123" then some "jp-text" else none

/-! ## JSON values

Model of parsed JSON documents (the output of Python `json.loads`).
Numbers are exact rationals.  Objects are association lists; Python dict
construction keeps the last value for a duplicated key, so lookups take
the last matching binding, and well-formed documents (the output of
json.loads) have pairwise distinct keys. -/

inductive Json where
  | null : Json
  | bool (b : Bool) : Json
  | num (q : ℚ) : Json
  | str (s : String) : Json
  | arr (items : List Json) : Json
  | obj (fields : List (String × Json)) : Json

/-- Python dict `get` on an object's fields (last binding wins). -/
def jLookup (fields : List (String × Json)) (key : String) : Option Json :=
  ((fields.filter (fun kv => kv.1 == key)).getLast?).map (fun kv => kv.2)

/-! ## serve.py : skill-parameter extraction and template rendering -/

/-- Decimal literal parser backing the Python `float(...)` call on string
parameters: optional fractional part, no exponent/underscore/inf forms
(those do not occur in the data and are not modelled). -/
def parseDecimal (cs : List Char) : Option ℚ :=
  let ip := cs.takeWhile isDigitChar
  match cs.dropWhile isDigitChar with
  | [] => if ip.isEmpty then none else some ((digitsToNat ip : ℚ))
  | '.' :: rest2 =>
    let fp := rest2.takeWhile isDigitChar
    if !(rest2.dropWhile isDigitChar).isEmpty then none
    else if ip.isEmpty && fp.isEmpty then none
    else some ((digitsToNat ip : ℚ) + (digitsToNat fp : ℚ) / pow10 fp.length)
  | _ => none

/-- Python `float(s)` on a stripped string, for plain decimal literals. -/
def pyFloat (s : String) : Option ℚ :=
  match pyStripList s.data with
  | '+' :: rest => parseDecimal rest
  | '-' :: rest => (parseDecimal rest).map (fun q => -q)
  | cs => parseDecimal cs

/-- Numeric reading of one parameter entry: numbers and booleans count
(Python bool is an int subclass), numeric strings are parsed, everything
else is skipped. -/
def paramValue : Json → Option ℚ
  | .num q => some q
  | .bool b => some (if b then 1 else 0)
  | .str s => pyFloat s
  | _ => none

/-- src/serve.py `parse_param_values` on a parsed JSON value: None or a
non-list yields []; list items contribute their "Value" field when they
are objects, themselves otherwise, skipping non-numeric entries.  (The
Python function first json.loads a string argument; the model takes the
already-parsed value.) -/
def parse_param_values (raw : Option Json) : List ℚ :=
  match raw with
  | none => []
  | some (.arr items) =>
    items.filterMap (fun item =>
      match item with
      | .obj fields => (jLookup fields "Value").bind paramValue
      | _ => paramValue item)
  | some _ => []

/-- One placeholder token matched by SKILL_PARAM_RE, with the raw
(unstripped) format group so the source text can be reconstructed. -/
structure ParamTok where
  digits : List Char
  fmtRaw : Option (List Char)
  percent : Bool
deriving DecidableEq, Repr

/-- A template is cut into literal characters and placeholder tokens. -/
inductive TplPiece where
  | lit (c : Char)
  | tok (t : ParamTok)
deriving DecidableEq, Repr

/-- Source text of the optional bracketed format group. -/
def fmtText : Option (List Char) → List Char
  | some inner => '[' :: (inner ++ [']'])
  | none => []

/-- Source text of a token after the leading hash sign. -/
def tokTail (t : ParamTok) : List Char :=
  t.digits ++ fmtText t.fmtRaw ++ (if t.percent then ['%'] else [])

/-- Full source text of a token. -/
def tokText (t : ParamTok) : List Char :=
  '#' :: tokTail t

/-- Source text of a piece. -/
def pieceText : TplPiece → List Char
  | .lit c => [c]
  | .tok t => tokText t

/-- The optional `\[([^\]]+)\]` group of SKILL_PARAM_RE: a bracketed
non-empty run of non-bracket characters; on failure nothing is consumed
(the regex group is optional). -/
def bracketScan (r1 : List Char) : Option (List Char) × List Char :=
  match r1 with
  | [] => (none, [])
  | c :: r =>
    if c = '[' then
      if (r.takeWhile (fun x => x != ']')).isEmpty then (none, c :: r)
      else
        match r.dropWhile (fun x => x != ']') with
        | [] => (none, c :: r)
        | d :: rr =>
          if d = ']' then (some (r.takeWhile (fun x => x != ']')), rr)
          else (none, c :: r)
    else (none, c :: r)

/-- One attempted match of SKILL_PARAM_RE directly after a hash sign:
`#(\d+)(?:\[([^\]]+)\])?(%)?`.  Returns the token and the rest of the
input, or None when no digits follow the hash sign. -/
def parseTok (rest : List Char) : Option (ParamTok × List Char) :=
  if (rest.takeWhile isDigitChar).isEmpty then none
  else
    match (bracketScan (rest.dropWhile isDigitChar)).2 with
    | [] =>
      some (⟨rest.takeWhile isDigitChar, (bracketScan (rest.dropWhile isDigitChar)).1, false⟩, [])
    | c :: r3 =>
      if c = '%' then
        some (⟨rest.takeWhile isDigitChar, (bracketScan (rest.dropWhile isDigitChar)).1, true⟩, r3)
      else
        some (⟨rest.takeWhile isDigitChar, (bracketScan (rest.dropWhile isDigitChar)).1, false⟩, c :: r3)

/-- Left-to-right non-overlapping scan of the template for
SKILL_PARAM_RE matches, as performed by `re.sub`.  The fuel argument
makes the recursion structural; fuel = length of the input suffices
because every step consumes at least one character. -/
def scanTemplate : ℕ → List Char → List TplPiece
  | 0, _ => []
  | _ + 1, [] => []
  | fuel + 1, c :: rest =>
    if c = '#' then
      match parseTok rest with
      | some (t, rest2) => .tok t :: scanTemplate fuel rest2
      | none => .lit '#' :: scanTemplate fuel rest
    else .lit c :: scanTemplate fuel rest

/-- src/serve.py `format_num`, producing the character list of the
rendered number.  With explicit decimals: fixed-point, optionally
stripping trailing zeros then a trailing point.  Without: integral
values print as integers, otherwise 4 decimals with trailing zeros and
point stripped. -/
def fixedDigits (q : ℚ) (d : ℕ) : List Char :=
  let scaled := pyRoundHalfEven (q * pow10 d)
  let mag := scaled.natAbs
  let sign : List Char := if q < 0 then ['-'] else []
  if d = 0 then sign ++ (toString mag).data
  else sign ++ (toString (mag / 10 ^ d)).data ++ '.' ::
    (List.replicate (d - (toString (mag % 10 ^ d)).data.length) '0' ++ (toString (mag % 10 ^ d)).data)

def format_num (value : ℚ) (decimals : Option ℕ) (trim : Bool) : List Char :=
  match decimals with
  | some d =>
    if trim ∧ 0 < d then rstripDot (rstripZeros (fixedDigits value d))
    else fixedDigits value d
  | none =>
    if value.den = 1 then (toString value.num).data
    else rstripDot (rstripZeros (fixedDigits value 4))

/-- The lowercased, stripped format group of a token
(Python `(match.group(2) or "").strip().lower()`). -/
def normFmt (t : ParamTok) : List Char :=
  (pyStripList (t.fmtRaw.getD [])).map Char.toLower

/-- The `repl` closure of src/serve.py `apply_param_template`: an
out-of-range 1-based index (0, or past the parameter list) reproduces the
matched text unchanged; otherwise the value (scaled by 100 for a percent
token) is rendered per the format group, and a percent token appends a
literal percent sign. -/
def replTok (params : List ℚ) (t : ParamTok) : List Char :=
  let index : ℤ := (digitsToNat t.digits : ℤ) - 1
  if index < 0 ∨ (params.length : ℤ) ≤ index then tokText t
  else
    let v0 := params.getD index.toNat 0
    let value := if t.percent then v0 * 100 else v0
    let rendered : List Char :=
      match normFmt t with
      | 'i' :: _ => (toString (pyRoundHalfEven value)).data
      | 'f' :: frest =>
        let ds := frest.takeWhile isDigitChar
        format_num value (some (if ds.isEmpty then 0 else digitsToNat ds)) false
      | _ => format_num value none true
    rendered ++ (if t.percent then ['%'] else [])

/-- Rendering of one template piece. -/
def renderPiece (params : List ℚ) : TplPiece → List Char
  | .lit c => [c]
  | .tok t => replTok params t

/-- src/serve.py `apply_param_template`: a None template stays None; an
empty extracted parameter list returns the template unchanged; otherwise
every SKILL_PARAM_RE match is substituted via the repl closure. -/
def apply_param_template (template : Option String) (raw_params : Option Json) : Option String :=
  match template with
  | none => none
  | some s =>
    let params := parse_param_values raw_params
    if params.isEmpty then some s
    else some (String.mk (((scanTemplate s.data.length s.data).map (renderPiece params)).flatten))

/-! ## build_module_dbs.py : avatar module text closure

The avatar shard's needed_hash set is the union of the SQL-collected hash
columns (avatar.name_hash, avatar.full_name_hash, avatar_skill.name_hash,
avatar_skill.desc_hash, avatar_skill.tag_hash, each filtered to non-NULL
and non-empty) and the Python-collected addresses from
`gather_module_hashes` (avatar_rank raw keys and rank-ability keys, plus
the avatar-story index).  Sets are modelled as lists; only membership
matters.  Columns that never carry text addresses are omitted from the
row models. -/

structure AvatarRow where
  avatar_id : ℤ
  name_hash : Option String
  full_name_hash : Option String
deriving DecidableEq, Repr

structure AvatarSkillRow where
  skill_id : ℤ
  level : ℤ
  name_hash : Option String
  desc_hash : Option String
  tag_hash : Option String
deriving DecidableEq, Repr

/-- One avatar_rank row; rank_ability is the parsed rank_ability_json
column (a JSON parse failure or non-list value contributes nothing, like
the `except` / isinstance guards in the source). -/
structure AvatarRankRow where
  rank_id : ℤ
  trigger_hash : Option String
  name_raw : Option String
  desc_raw : Option String
  rank_ability : Json

/-- The avatar module's source tables together with the two per-avatar
story index collections produced by `load_avatar_story_index` (their
story_hash values and story-name hash values), which
`gather_module_hashes` also walks. -/
structure AvatarModuleDB where
  avatar : List AvatarRow
  avatar_promotion : List PromotionRow
  avatar_skill : List AvatarSkillRow
  avatar_rank : List AvatarRankRow
  story_hashes : List String
  story_name_hashes : List String

/-- One SQL `SELECT col FROM t WHERE col IS NOT NULL AND col != ''`
insert into needed_hash. -/
def sqlHashColumn {α : Type} (rows : List α) (f : α → Option String) : List String :=
  (rows.filterMap f).filter (fun h => h ≠ "")

/-- src/build_module_dbs.py `add_hash_if_any`: skip falsy raw keys,
otherwise add the resolved address when hashing succeeds. -/
def add_hash_if_any (impls : HashImpls) (raw : Option String) : Option String :=
  match raw with
  | none => none
  | some s => if s = "" then none else hash_text_key impls s

/-- The string entries of a parsed rank_ability_json list. -/
def rankAbilityStrings : Json → List String
  | .arr items =>
    items.filterMap (fun item =>
      match item with
      | .str s => some s
      | _ => none)
  | _ => []

/-- The Python-side collection of `gather_module_hashes` for the avatar
module (the `out` set): resolved addresses of rank name/desc raw keys,
rank-ability keys, and the story-index hashes.  The source accumulates
one set while iterating rows; the per-column concatenation below has the
same members. -/
def gather_avatar_hashes (impls : HashImpls) (db : AvatarModuleDB) : List String :=
  (db.avatar_rank.filterMap (fun r => add_hash_if_any impls r.name_raw)) ++
  (db.avatar_rank.filterMap (fun r => add_hash_if_any impls r.desc_raw)) ++
  (db.avatar_rank.map (fun r =>
    (rankAbilityStrings r.rank_ability).filterMap
      (fun s => add_hash_if_any impls (some s)))).flatten ++
  (db.story_hashes.filterMap (fun s => add_hash_if_any impls (some s))) ++
  (db.story_name_hashes.filterMap (fun s => add_hash_if_any impls (some s)))

/-- The avatar module's needed_hash closure: SQL-collected hash columns
plus the gathered Python-side addresses. -/
def avatar_needed_hashes (impls : HashImpls) (db : AvatarModuleDB) : List String :=
  sqlHashColumn db.avatar (fun r => r.name_hash) ++
  sqlHashColumn db.avatar (fun r => r.full_name_hash) ++
  sqlHashColumn db.avatar_skill (fun r => r.name_hash) ++
  sqlHashColumn db.avatar_skill (fun r => r.desc_hash) ++
  sqlHashColumn db.avatar_skill (fun r => r.tag_hash) ++
  gather_avatar_hashes impls db

/-- A rank row whose only hash field is a non-empty trigger_hash. -/
def exRankTrigger : AvatarRankRow :=
  { rank_id := 1, trigger_hash := some "42", name_raw := none, desc_raw := none,
    rank_ability := Json.arr [] }

/-- A database holding just that rank row. -/
def exTriggerDb : AvatarModuleDB :=
  { avatar := [], avatar_promotion := [], avatar_skill := [], avatar_rank := [exRankTrigger],
    story_hashes := [], story_name_hashes := [] }

/-- Witness rows for the amended closure theorem. -/
def exAvatarRow : AvatarRow :=
  { avatar_id := 1001, name_hash := some "111", full_name_hash := none }

def exSkillRow : AvatarSkillRow :=
  { skill_id := 100101, level := 1, name_hash := some "222", desc_hash := some "333",
    tag_hash := none }

def exRankKeyed : AvatarRankRow :=
  { rank_id := 2, trigger_hash := none, name_raw := some "444", desc_raw := none,
    rank_ability := Json.arr [Json.str ("555")] }

def exAvatarDb : AvatarModuleDB :=
  { avatar := [exAvatarRow], avatar_promotion := [], avatar_skill := [exSkillRow],
    avatar_rank := [exRankKeyed], story_hashes := [], story_name_hashes := [] }

/-! ## build_db.py : reference extraction from narrative JSON

`extract_reference_rows` walks a parsed document, threading an inherited
type tag downward, and emits de-duplicated reference rows.  The walk is
given as a fueled, structurally recursive function; fuel = sizeOf of the
document suffices since every recursion step descends into a strict
subterm. -/

/-- src/build_db.py `to_int` on an optional JSON value: ints pass
through (bools are excluded), strings matching `-?\d+` after stripping
parse, everything else is None.  JSON integers are numbers with
denominator 1. -/
def to_int : Option Json → Option ℤ
  | some (.num q) => if q.den = 1 then some q.num else none
  | some (.str s) =>
    match pyStripList s.data with
    | '-' :: ds =>
      if !ds.isEmpty && ds.all isDigitChar then some (-(digitsToNat ds : ℤ)) else none
    | ds =>
      if !ds.isEmpty && ds.all isDigitChar then some ((digitsToNat ds : ℤ)) else none
  | _ => none

/-- src/build_db.py `as_custom`: a plain string, or the string "Value"
field of a wrapper object. -/
def as_custom : Option Json → Option String
  | some (.str s) => some s
  | some (.obj fields) =>
    match jLookup fields "Value" with
    | some (.str s) => some s
    | _ => none
  | _ => none

/-- A string-valued field (`node.get(k) if isinstance(..., str) else None`). -/
def jStrField (fields : List (String × Json)) (key : String) : Option String :=
  match jLookup fields key with
  | some (.str s) => some s
  | _ => none

/-- Drop a literal leading sequence, or fail. -/
def dropLead : List Char → List Char → Option (List Char)
  | [], rest => some rest
  | _, [] => none
  | p :: ps, c :: cs => if c = p then dropLead ps cs else none

/-- Leftmost match of TALK_SENTENCE_RE (`TalkSentence_(\d+)`) in a
string, returning the numeral (regex search semantics: try each start
position left to right, greedy digits). -/
def tsSearch : List Char → Option ℕ
  | [] => none
  | c :: rest =>
    match dropLead ("TalkSentence_".data) (c :: rest) with
    | some r1 =>
      if (r1.takeWhile isDigitChar).isEmpty then tsSearch rest
      else some (digitsToNat (r1.takeWhile isDigitChar))
    | none => tsSearch rest

/-- The talk-id fallback loop over (trigger, custom): the first truthy
candidate containing a TalkSentence numeral supplies the id. -/
def candidateId : Option String → Option ℤ
  | some s => if s = "" then none else (tsSearch s.data).map (fun n => (n : ℤ))
  | none => none

def talkIdFromCandidates (trigger custom : Option String) : Option ℤ :=
  match candidateId trigger with
  | some n => some n
  | none => candidateId custom

/-- A step of a JSON path: object field or array index. -/
inductive PathStep where
  | field (k : String)
  | index (i : ℕ)
deriving DecidableEq, Repr

/-- The json_path string stored on rows ("$", then ".key" / "[i]"). -/
def renderPath (p : List PathStep) : String :=
  p.foldl
    (fun acc s =>
      match s with
      | .field k => acc ++ "." ++ k
      | .index i => acc ++ "[" ++ toString i ++ "]")
    ("$")

/-- Python `str.split("/")`. -/
def splitSlash : List Char → List (List Char)
  | [] => [[]]
  | c :: rest =>
    let r := splitSlash rest
    if c = '/' then [] :: r
    else
      match r with
      | [] => [[c]]
      | h :: t => (c :: h) :: t

/-- src/build_db.py `source_group`. -/
def source_group (path : String) : String :=
  let parts := (splitSlash (path.data.map (fun c => if c = '\\' then '/' else c))).map
    (fun l => String.mk l)
  if 2 ≤ parts.length ∧ parts.getD 0 "" = "Story" then "Story/" ++ parts.getD 1 ""
  else if 3 ≤ parts.length ∧ parts.getD 0 "" = "Config" ∧ parts.getD 1 "" = "Level" then
    "Config/Level/" ++ parts.getD 2 ""
  else parts.getD 0 ("Unknown")

/-- One emitted story_reference row.  The structured path renders to the
stored json_path string via renderPath. -/
structure RefRow where
  source_path : String
  group : String
  path : List PathStep
  task_type : Option String
  talk_sentence_id : Option ℤ
  timeline_name : Option String
  performance_type : Option String
  performance_id : Option ℤ
  trigger_custom_string : Option String
  custom_string : Option String
deriving DecidableEq, Repr

/-- The de-duplication key of a candidate row (the source keys on the
rendered json_path string together with the payload fields). -/
def rowKey (r : RefRow) :
    String × Option String × Option ℤ × Option String × Option String × Option ℤ ×
      Option String × Option String :=
  (renderPath r.path, r.task_type, r.talk_sentence_id, r.timeline_name,
    r.performance_type, r.performance_id, r.trigger_custom_string, r.custom_string)

/-- First-occurrence filter over candidate rows with a seen-key set. -/
def dedupRows : List RefRow → List (String × Option String × Option ℤ × Option String ×
    Option String × Option ℤ × Option String × Option String) → List RefRow
  | [], _ => []
  | r :: rest, seen =>
    if rowKey r ∈ seen then dedupRows rest seen
    else r :: dedupRows rest (rowKey r :: seen)

/-- The node's own type tag: a string-valued "$type" field of an object. -/
def ownTag : Json → Option String
  | .obj fields =>
    match jLookup fields "$type" with
    | some (.str s) => some s
    | _ => none
  | _ => none

/-- A locally present tag overrides the inherited one. -/
def tagOrElse (own inh : Option String) : Option String :=
  match own with
  | some t => some t
  | none => inh

/-- The talk-sentence id of an object node: the typed TalkSentenceID
field, else the first truthy trigger/custom string containing a
TalkSentence numeral. -/
def objTalkId (fields : List (String × Json)) : Option ℤ :=
  match to_int (jLookup fields "TalkSentenceID") with
  | some t => some t
  | none =>
    talkIdFromCandidates (as_custom (jLookup fields "TriggerCustomString"))
      (as_custom (jLookup fields "CustomString"))

/-- Whether an object node emits a candidate row: any of the payload
fields is present (Python `any((...))` with truthiness on strings). -/
def objEmit (fields : List (String × Json)) : Bool :=
  (objTalkId fields).isSome || truthyText (jStrField fields "TimelineName") ||
    truthyText (jStrField fields "PerformanceType") ||
    (to_int (jLookup fields "PerformanceID")).isSome ||
    truthyText (as_custom (jLookup fields "TriggerCustomString")) ||
    truthyText (as_custom (jLookup fields "CustomString"))

/-- The candidate row emitted at an object node with a given resolved
type tag. -/
def objRow (relPath : String) (fields : List (String × Json)) (path : List PathStep)
    (tag : Option String) : RefRow :=
  { source_path := relPath
    group := source_group relPath
    path := path
    task_type := tag
    talk_sentence_id := objTalkId fields
    timeline_name := jStrField fields "TimelineName"
    performance_type := jStrField fields "PerformanceType"
    performance_id := to_int (jLookup fields "PerformanceID")
    trigger_custom_string := as_custom (jLookup fields "TriggerCustomString")
    custom_string := as_custom (jLookup fields "CustomString") }

/-- The recursive walk of `extract_reference_rows`, with fuel.  At an
object node the tag is the node's own string $type if any, else the
inherited tag; the node emits a candidate row when any payload field is
present; children are visited with the node's tag and extended field
paths.  Array elements are visited with the unchanged inherited tag and
indexed paths.  Other nodes emit nothing. -/
def walkRefs (relPath : String) : ℕ → Json → List PathStep → Option String → List RefRow
  | 0, _, _, _ => []
  | fuel + 1, .obj fields, path, inh =>
    (if objEmit fields then
      [objRow relPath fields path (tagOrElse (ownTag (.obj fields)) inh)]
     else []) ++
      (fields.map (fun kv =>
        walkRefs relPath fuel kv.2 (path ++ [.field kv.1])
          (tagOrElse (ownTag (.obj fields)) inh))).flatten
  | fuel + 1, .arr items, path, inh =>
    ((pyEnumerate 0 items).map
      (fun iv => walkRefs relPath fuel iv.2 (path ++ [.index iv.1]) inh)).flatten
  | _ + 1, .null, _, _ => []
  | _ + 1, .bool _, _, _ => []
  | _ + 1, .num _, _, _ => []
  | _ + 1, .str _, _, _ => []

/-- src/build_db.py `extract_reference_rows`: depth-first walk from the
root with path "$" and no inherited tag, then de-duplication keeping
first occurrences.  The Python recursion is modelled with fuel; any fuel
at least the document depth yields the source function's output
(`wfJson fuel doc = true` certifies sufficiency, and
`extract_reference_rows_fuel_irrelevant` shows the result does not
depend on the chosen sufficient fuel). -/
def extract_reference_rows (relPath : String) (fuel : ℕ) (doc : Json) : List RefRow :=
  dedupRows (walkRefs relPath fuel doc [] none) []

/-- A well-formedness check matching documents produced by json.loads:
every object's keys are pairwise distinct (fueled like the walk). -/
def wfJson : ℕ → Json → Bool
  | 0, _ => false
  | fuel + 1, node =>
    match node with
    | .obj fields =>
      nodupKeys (fields.map (fun kv => kv.1)) && fields.all (fun kv => wfJson fuel kv.2)
    | .arr items => items.all (fun v => wfJson fuel v)
    | _ => true

/-- The child of a node along one path step. -/
def childAt : Json → PathStep → Option Json
  | .obj fields, .field k => jLookup fields k
  | .arr items, .index i => items[i]?
  | _, _ => none

/-- The chain of nodes from a root along a path (empty if the path does
not resolve); the target node is included. -/
def nodesAlong : Json → List PathStep → List Json
  | j, [] => [j]
  | j, s :: rest =>
    match childAt j s with
    | some c => j :: nodesAlong c rest
    | none => []

/-- The type tag determined by a root-to-node chain: the last own tag of
any node on the chain (the nearest ancestor-or-self object carrying a
string $type; arrays and tagless objects contribute nothing). -/
def chainTag (ns : List Json) : Option String :=
  (ns.filterMap ownTag).getLast?

/-- chainTag relative to an ambient inherited tag. -/
def chainTagFrom (inh : Option String) (ns : List Json) : Option String :=
  match (ns.filterMap ownTag).getLast? with
  | some t => some t
  | none => inh

/-- A document exercising downward tag inheritance: the child object and
the second array element inherit the root tag, while the first array
element carries its own tag; the sibling's tag never leaks. -/
def exRefDoc : Json :=
  Json.obj [("$type", Json.str ("RootType")),
    ("child", Json.obj [("TalkSentenceID", Json.num 5)]),
    ("items", Json.arr [
      Json.obj [("$type", Json.str ("SubType")), ("TalkSentenceID", Json.num 7)],
      Json.obj [("TalkSentenceID", Json.num 8)]])]

/-! ## Theorems -/

theorem pow10_pos (d : ℕ) : 0 < pow10 d := by
  have h : 0 < (10 : ℕ) ^ d := pow_pos (by norm_num) d
  unfold pow10
  exact_mod_cast h

theorem ratFloor_eq_floor (q : ℚ) : ratFloor q = ⌊q⌋ := by
  have hden : (0 : ℤ) ≤ (q.den : ℤ) := by positivity
  rw [ratFloor, Int.fdiv_eq_ediv q.num hden, Rat.floor_def]

theorem pyRoundHalfEven_mono {x y : ℚ} (h : x ≤ y) :
    pyRoundHalfEven x ≤ pyRoundHalfEven y := by
  unfold pyRoundHalfEven
  rw [ratFloor_eq_floor, ratFloor_eq_floor]
  have hf : ⌊x⌋ ≤ ⌊y⌋ := Int.floor_le_floor h
  rcases eq_or_lt_of_le hf with hEq | hLt
  · -- same floor: compare fractional parts
    have hfr : x - (⌊x⌋ : ℚ) ≤ y - (⌊y⌋ : ℚ) := by
      have : ((⌊x⌋ : ℚ)) = ((⌊y⌋ : ℚ)) := by exact_mod_cast hEq
      linarith
    rw [hEq]
    split_ifs with h1 h2 h3 h4 h5 h6 h7 h8 <;> first | omega | linarith
  · -- strictly larger floor: left result ≤ ⌊x⌋ + 1 ≤ ⌊y⌋ ≤ right result
    have hL : (if x - (⌊x⌋ : ℚ) < 1/2 then ⌊x⌋ else if 1/2 < x - (⌊x⌋ : ℚ) then ⌊x⌋ + 1
        else if ⌊x⌋ % 2 = 0 then ⌊x⌋ else ⌊x⌋ + 1) ≤ ⌊x⌋ + 1 := by
      split_ifs <;> omega
    have hR : ⌊y⌋ ≤ (if y - (⌊y⌋ : ℚ) < 1/2 then ⌊y⌋ else if 1/2 < y - (⌊y⌋ : ℚ) then ⌊y⌋ + 1
        else if ⌊y⌋ % 2 = 0 then ⌊y⌋ else ⌊y⌋ + 1) := by
      split_ifs <;> omega
    omega

theorem pyRound_mono {x y : ℚ} (d : ℕ) (h : x ≤ y) : pyRound x d ≤ pyRound y d := by
  unfold pyRound
  have hp : (0 : ℚ) < pow10 d := pow10_pos d
  have hm : (pyRoundHalfEven (x * pow10 d) : ℚ) ≤ (pyRoundHalfEven (y * pow10 d) : ℚ) := by
    exact_mod_cast pyRoundHalfEven_mono (mul_le_mul_of_nonneg_right h (le_of_lt hp))
  gcongr

theorem stat_at_level_getD (b g : Option ℚ) (l : ℕ) :
    stat_at_level b g l = b.map (fun x => pyRound (x + g.getD 0 * ((l : ℚ) - 1)) 4) := by
  rcases b with _ | x
  · rfl
  · rcases g with _ | y
    · simp [stat_at_level, Option.map, Option.getD]
    · simp [stat_at_level, Option.map, Option.getD]

theorem selStage_mem (s0 : PromotionRow) (srest : List PromotionRow) (l : ℕ) :
    selStage s0 srest l ∈ s0 :: srest := by
  unfold selStage
  rcases hf : (s0 :: srest).find? (fun p => (l : ℤ) ≤ mlKey p) with _ | p
  · simp only [hf, Option.getD_none]
    exact @List.getLast_mem _ (s0 :: srest) (by simp)
  · simp only [hf, Option.getD_some]
    exact List.mem_of_find?_eq_some hf

theorem selStage_singleton (s0 : PromotionRow) (l : ℕ) : selStage s0 [] l = s0 := by
  unfold selStage
  rcases hf : List.find? (fun p => decide ((l : ℤ) ≤ mlKey p)) [s0] with _ | p
  · simp
  · have hm := List.mem_of_find?_eq_some hf
    simp only [List.mem_singleton] at hm
    simp [hm]

theorem selStage_head (s0 : PromotionRow) (srest : List PromotionRow) (l : ℕ)
    (h : (l : ℤ) ≤ mlKey s0) : selStage s0 srest l = s0 := by
  unfold selStage
  rw [List.find?_cons_of_pos _ (by simpa using h)]
  rfl

theorem selStage_cons_tail (s0 t : PromotionRow) (ts : List PromotionRow) (l : ℕ)
    (h : ¬ (l : ℤ) ≤ mlKey s0) : selStage s0 (t :: ts) l = selStage t ts l := by
  unfold selStage
  rw [List.find?_cons_of_neg _ (by simpa using h)]
  rcases hf : List.find? (fun p => decide ((l : ℤ) ≤ mlKey p)) (t :: ts) with _ | p
  · simp [List.getLast_cons]
  · rfl

theorem sortedPromotions_pairwise (ps : List PromotionRow) :
    (sortedPromotions ps).Pairwise (fun a b => mlKey a ≤ mlKey b) :=
  List.sorted_insertionSort (fun a b => mlKey a ≤ mlKey b) (validPromotions ps)

theorem sortedPromotions_subset {p : PromotionRow} {ps : List PromotionRow}
    (h : p ∈ sortedPromotions ps) : p ∈ ps := by
  unfold sortedPromotions at h
  have hv : p ∈ validPromotions ps :=
    ((List.perm_insertionSort (fun a b => mlKey a ≤ mlKey b) (validPromotions ps)).mem_iff).mp h
  exact (List.mem_filter.mp hv).1

theorem selStage_mono (s0 : PromotionRow) (srest : List PromotionRow)
    (hs : (s0 :: srest).Pairwise (fun a b => mlKey a ≤ mlKey b))
    {l l' : ℕ} (hll : l ≤ l') :
    mlKey (selStage s0 srest l) ≤ mlKey (selStage s0 srest l') := by
  have hcast : (l : ℤ) ≤ (l' : ℤ) := by exact_mod_cast hll
  induction srest generalizing s0 with
  | nil => rw [selStage_singleton, selStage_singleton]
  | cons t ts ih =>
    by_cases hl' : (l' : ℤ) ≤ mlKey s0
    · have hl : (l : ℤ) ≤ mlKey s0 := le_trans hcast hl'
      rw [selStage_head s0 _ l hl, selStage_head s0 _ l' hl']
    · rw [selStage_cons_tail s0 t ts l' hl']
      by_cases hl : (l : ℤ) ≤ mlKey s0
      · rw [selStage_head s0 _ l hl]
        have hmem := selStage_mem t ts l'
        exact List.rel_of_pairwise_cons hs hmem
      · rw [selStage_cons_tail s0 t ts l hl]
        exact ih t (List.Pairwise.of_cons hs)

theorem statField_mono (bP bQ gP gQ : Option ℚ) (li lj : ℕ)
    (hli : 1 ≤ li) (hl : li ≤ lj)
    (hb : optLeQ bP bQ) (hg : gP.getD 0 ≤ gQ.getD 0) (hgQ : 0 ≤ gQ.getD 0) :
    optLeQ (bP.map (fun x => pyRound (x + gP.getD 0 * ((li : ℚ) - 1)) 4))
      (bQ.map (fun x => pyRound (x + gQ.getD 0 * ((lj : ℚ) - 1)) 4)) := by
  rcases bP with _ | x
  · simp [optLeQ]
  · rcases bQ with _ | y
    · simp [optLeQ]
    · have hxy : x ≤ y := hb
      have hiQ : (0 : ℚ) ≤ (li : ℚ) - 1 := by
        have : (1 : ℚ) ≤ (li : ℚ) := by exact_mod_cast hli
        linarith
      have hij : ((li : ℚ) - 1) ≤ ((lj : ℚ) - 1) := by
        have : (li : ℚ) ≤ (lj : ℚ) := by exact_mod_cast hl
        linarith
      have h1 : gP.getD 0 * ((li : ℚ) - 1) ≤ gQ.getD 0 * ((li : ℚ) - 1) :=
        mul_le_mul_of_nonneg_right hg hiQ
      have h2 : gQ.getD 0 * ((li : ℚ) - 1) ≤ gQ.getD 0 * ((lj : ℚ) - 1) :=
        mul_le_mul_of_nonneg_left hij hgQ
      show pyRound (x + gP.getD 0 * ((li : ℚ) - 1)) 4 ≤ pyRound (y + gQ.getD 0 * ((lj : ℚ) - 1)) 4
      exact pyRound_mono 4 (by linarith)

/-- C2: monotonicity of `build_avatar_level_stats` in hp/attack/defence as
the level increases.  The claim's own hypotheses (defined max_level,
non-negative growth) are not sufficient: a later promotion stage may have
an arbitrarily smaller base, so monotonicity additionally needs the bases
and growths to be ordered along the stage order (stages with a smaller
max_level have pointwise smaller-or-equal base and growth).  The empty
breakpoint list yields the empty row list. -/
theorem c2_level_stats_monotone
    (promotions : List PromotionRow) (n i j : ℕ)
    (hml : ∀ p ∈ promotions, p.max_level.isSome = true)
    (hnn : ∀ p ∈ promotions,
      0 ≤ p.hp_add.getD 0 ∧ 0 ≤ p.attack_add.getD 0 ∧ 0 ≤ p.defence_add.getD 0)
    (hcross : ∀ p ∈ promotions, ∀ q ∈ promotions, mlKey p ≤ mlKey q →
      (optLeQ p.hp_base q.hp_base ∧ p.hp_add.getD 0 ≤ q.hp_add.getD 0) ∧
      (optLeQ p.attack_base q.attack_base ∧ p.attack_add.getD 0 ≤ q.attack_add.getD 0) ∧
      (optLeQ p.defence_base q.defence_base ∧ p.defence_add.getD 0 ≤ q.defence_add.getD 0))
    (hij : i ≤ j) (hj : j < (build_avatar_level_stats promotions n).length) :
    build_avatar_level_stats [] n = [] ∧
    (optLeQ ((build_avatar_level_stats promotions n).get ⟨i, lt_of_le_of_lt hij hj⟩).hp
        ((build_avatar_level_stats promotions n).get ⟨j, hj⟩).hp ∧
      optLeQ ((build_avatar_level_stats promotions n).get ⟨i, lt_of_le_of_lt hij hj⟩).attack
        ((build_avatar_level_stats promotions n).get ⟨j, hj⟩).attack ∧
      optLeQ ((build_avatar_level_stats promotions n).get ⟨i, lt_of_le_of_lt hij hj⟩).defence
        ((build_avatar_level_stats promotions n).get ⟨j, hj⟩).defence) := by
  refine ⟨rfl, ?_⟩
  rcases hsort : sortedPromotions promotions with _ | ⟨s0, srest⟩
  · exfalso
    have : build_avatar_level_stats promotions n = [] := by
      unfold build_avatar_level_stats
      rw [hsort]
    rw [this] at hj
    simp at hj
  · have hrows : build_avatar_level_stats promotions n = (List.range' 1 n).map (mkLevelRow s0 srest) := by
      unfold build_avatar_level_stats
      rw [hsort]
    have hlen : (build_avatar_level_stats promotions n).length = n := by
      rw [hrows]; simp
    have hi : i < (build_avatar_level_stats promotions n).length := lt_of_le_of_lt hij hj
    have hgeti : (build_avatar_level_stats promotions n).get ⟨i, hi⟩ = mkLevelRow s0 srest (1 + i) := by
      have hi' : i < n := by rw [hlen] at hi; exact hi
      simp [hrows, List.getElem_range']
    have hgetj : (build_avatar_level_stats promotions n).get ⟨j, hj⟩ = mkLevelRow s0 srest (1 + j) := by
      have hj' : j < n := by rw [hlen] at hj; exact hj
      simp [hrows, List.getElem_range']
    have hpw : (s0 :: srest).Pairwise (fun a b => mlKey a ≤ mlKey b) := by
      rw [← hsort]; exact sortedPromotions_pairwise promotions
    set P := selStage s0 srest (1 + i) with hP
    set Q := selStage s0 srest (1 + j) with hQ
    have hPmem : P ∈ promotions := by
      apply sortedPromotions_subset
      rw [hsort]; exact selStage_mem s0 srest (1 + i)
    have hQmem : Q ∈ promotions := by
      apply sortedPromotions_subset
      rw [hsort]; exact selStage_mem s0 srest (1 + j)
    have hkey : mlKey P ≤ mlKey Q :=
      selStage_mono s0 srest hpw (by omega)
    obtain ⟨⟨hbh, hgh⟩, ⟨hba, hga⟩, ⟨hbd, hgd⟩⟩ := hcross P hPmem Q hQmem hkey
    obtain ⟨hnh, hna, hnd⟩ := hnn Q hQmem
    rw [hgeti, hgetj]
    unfold mkLevelRow
    simp only [stat_at_level_getD]
    exact ⟨statField_mono _ _ _ _ _ _ (by omega) (by omega) hbh hgh hnh,
      statField_mono _ _ _ _ _ _ (by omega) (by omega) hba hga hna,
      statField_mono _ _ _ _ _ _ (by omega) (by omega) hbd hgd hnd⟩

/-- C2 counterexample: the two breakpoints above satisfy every hypothesis of
the claim (defined max_level, non-negative hp/attack/defence growth), yet hp
drops from 100 at level 1 to 0 at level 2, so the emitted rows are not
monotonic non-decreasing in hp. -/
theorem c2_counterexample :
    (∀ p ∈ [exStageLow, exStageHigh],
      p.max_level.isSome = true ∧
      0 ≤ p.hp_add.getD 0 ∧ 0 ≤ p.attack_add.getD 0 ∧ 0 ≤ p.defence_add.getD 0) ∧
    (build_avatar_level_stats [exStageLow, exStageHigh] 2).map (fun r => r.hp) =
      [some 100, some 0] ∧
    ¬ ((100 : ℚ) ≤ 0) := by
  refine ⟨?_, ?_, ?_⟩ <;> with_unfolding_all exact of_decide_eq_true rfl

theorem c2_level_stats_monotone_witness :
    build_avatar_level_stats [] 2 = [] ∧
    (optLeQ ((build_avatar_level_stats [exStageW] 2).get ⟨0, by with_unfolding_all exact of_decide_eq_true rfl⟩).hp
        ((build_avatar_level_stats [exStageW] 2).get ⟨1, by with_unfolding_all exact of_decide_eq_true rfl⟩).hp ∧
      optLeQ ((build_avatar_level_stats [exStageW] 2).get ⟨0, by with_unfolding_all exact of_decide_eq_true rfl⟩).attack
        ((build_avatar_level_stats [exStageW] 2).get ⟨1, by with_unfolding_all exact of_decide_eq_true rfl⟩).attack ∧
      optLeQ ((build_avatar_level_stats [exStageW] 2).get ⟨0, by with_unfolding_all exact of_decide_eq_true rfl⟩).defence
        ((build_avatar_level_stats [exStageW] 2).get ⟨1, by with_unfolding_all exact of_decide_eq_true rfl⟩).defence) :=
  c2_level_stats_monotone [exStageW] 2 0 1
    (by with_unfolding_all exact of_decide_eq_true rfl)
    (by with_unfolding_all exact of_decide_eq_true rfl)
    (by with_unfolding_all exact of_decide_eq_true rfl)
    (by decide)
    (by with_unfolding_all exact of_decide_eq_true rfl)

theorem stat_at_level_speed (b : Option ℚ) (l : ℕ) :
    stat_at_level b none l = b.map (fun x => pyRound x 4) := by
  rcases b with _ | x <;> rfl

/-- C3 (amended): full row-level characterization of
`build_avatar_level_stats`.  Breakpoints without a max_level are dropped
(empty output if none remain), the rest are sorted ascending by max_level,
each level from 1 to level_max selects the first breakpoint whose
max_level is ≥ the level (else the last), and hp/attack/defence are
base + growth * (level - 1) rounded to 4 decimal places (a missing growth
acting as 0).  Amendment: speed is not passed through unmodified — it is
the selected stage's base, also rounded to 4 decimal places. -/
theorem c3_level_stats_rows (ps : List PromotionRow) (n : ℕ) :
    (validPromotions ps = [] → build_avatar_level_stats ps n = []) ∧
    (validPromotions ps ≠ [] →
      ∃ s0 srest, sortedPromotions ps = s0 :: srest ∧
        (build_avatar_level_stats ps n).length = n ∧
        ∀ i, i < n →
          (build_avatar_level_stats ps n)[i]? =
            some
              (let stage := ((s0 :: srest).find? (fun p => ((1 + i : ℕ) : ℤ) ≤ mlKey p)).getD ((s0 :: srest).getLast (by simp));
               { level := 1 + i
                 promotion := stage.promotion
                 hp := stage.hp_base.map
                   (fun b => pyRound (b + stage.hp_add.getD 0 * (((1 + i : ℕ) : ℚ) - 1)) 4)
                 attack := stage.attack_base.map
                   (fun b => pyRound (b + stage.attack_add.getD 0 * (((1 + i : ℕ) : ℚ) - 1)) 4)
                 defence := stage.defence_base.map
                   (fun b => pyRound (b + stage.defence_add.getD 0 * (((1 + i : ℕ) : ℚ) - 1)) 4)
                 speed := stage.speed_base.map (fun b => pyRound b 4) })) := by
  constructor
  · intro hv
    unfold build_avatar_level_stats sortedPromotions
    rw [hv]
    rfl
  · intro hne
    rcases hsort : sortedPromotions ps with _ | ⟨s0, srest⟩
    · exfalso
      apply hne
      have hperm := List.perm_insertionSort (fun a b => mlKey a ≤ mlKey b) (validPromotions ps)
      rw [sortedPromotions] at hsort
      rw [hsort] at hperm
      exact (List.Perm.nil_eq hperm).symm
    · refine ⟨s0, srest, rfl, ?_, ?_⟩
      · unfold build_avatar_level_stats
        rw [hsort]
        simp
      · intro i hi
        have hrows : build_avatar_level_stats ps n = (List.range' 1 n).map (mkLevelRow s0 srest) := by
          unfold build_avatar_level_stats
          rw [hsort]
        rw [hrows, List.getElem?_map]
        have hr : (List.range' 1 n)[i]? = some (1 + i) := by
          rw [List.getElem?_eq_getElem (by simpa using hi)]
          simp [List.getElem_range']
        rw [hr]
        unfold mkLevelRow selStage
        simp [stat_at_level_getD, stat_at_level_speed]

/-- C3 counterexample: speed is not passed through unmodified; the stage
base 3/100000 is emitted as round(3/100000, 4) = 0. -/
theorem c3_counterexample :
    exSpdStage.speed_base = some (3/100000) ∧
    (build_avatar_level_stats [exSpdStage] 1).map (fun r => r.speed) = [some 0] ∧
    ¬ ((0 : ℚ) = 3/100000) := by
  refine ⟨by with_unfolding_all rfl, by with_unfolding_all rfl,
    by with_unfolding_all exact of_decide_eq_true rfl⟩

theorem c3_level_stats_rows_witness :
    build_avatar_level_stats [] 4 = [] ∧
    (∃ s0 srest, sortedPromotions [exStageW] = s0 :: srest ∧
      (build_avatar_level_stats [exStageW] 1).length = 1 ∧
      ∀ i, i < 1 →
        (build_avatar_level_stats [exStageW] 1)[i]? =
          some
            (let stage := ((s0 :: srest).find? (fun p => ((1 + i : ℕ) : ℤ) ≤ mlKey p)).getD ((s0 :: srest).getLast (by simp));
             { level := 1 + i
               promotion := stage.promotion
               hp := stage.hp_base.map
                 (fun b => pyRound (b + stage.hp_add.getD 0 * (((1 + i : ℕ) : ℚ) - 1)) 4)
               attack := stage.attack_base.map
                 (fun b => pyRound (b + stage.attack_add.getD 0 * (((1 + i : ℕ) : ℚ) - 1)) 4)
               defence := stage.defence_base.map
                 (fun b => pyRound (b + stage.defence_add.getD 0 * (((1 + i : ℕ) : ℚ) - 1)) 4)
               speed := stage.speed_base.map (fun b => pyRound b 4) })) :=
  ⟨(c3_level_stats_rows [] 4).1 rfl,
   (c3_level_stats_rows [exStageW] 1).2 (by with_unfolding_all exact of_decide_eq_true rfl)⟩

/-- C7: with neither hashing implementation available, hashing a
non-numeric key resolves to unresolved (None) without raising, and the
unresolved result propagates through `resolve_text_from_key` as an absent
text, for any store and language.  All embedded functions are total, so
the no-raise part is by construction. -/
theorem c7_hashing_unavailable (raw : String) (store : TextStore) (lang : String)
    (hnd : isRawHash (pyStrip raw) = false) :
    hash_text_key noHashImpls raw = none ∧
    resolve_text_from_key noHashImpls store lang (some raw) = none := by
  have h1 : hash_text_key noHashImpls raw = none := by
    unfold hash_text_key hashViaXxhsum noHashImpls
    by_cases hz : pyStrip raw = "" <;> simp [hz, hnd]
  refine ⟨h1, ?_⟩
  unfold resolve_text_from_key
  by_cases hr : raw = ""
  · simp [hr]
  · simp [hr, h1]

theorem c7_hashing_unavailable_witness :
    hash_text_key noHashImpls "AvatarName_1001" = none ∧
    resolve_text_from_key noHashImpls (fun _ _ => some "stored") "EN"
      (some "AvatarName_1001") = none :=
  c7_hashing_unavailable "AvatarName_1001" (fun _ _ => some "stored") "EN" (by decide)

/-- C8: an empty or whitespace-only key hashes to unresolved; a key whose
trimmed form is purely decimal digits is its own address, for every
combination of available hashing implementations; in particular
resolving the key "123" yields the address "123". -/
theorem c8_numeral_short_circuit (impls : HashImpls) (raw : String) :
    (pyStrip raw = "" → hash_text_key impls raw = none) ∧
    (pyStrip raw ≠ "" → (pyStrip raw).data.all isDigitChar = true →
      hash_text_key impls raw = some (pyStrip raw)) ∧
    hash_text_key impls "123" = some "123" := by
  refine ⟨?_, ?_, ?_⟩
  · intro hz
    unfold hash_text_key
    simp [hz]
  · intro hz hd
    have hraw : isRawHash (pyStrip raw) = true := by
      unfold isRawHash
      rcases hs : (pyStrip raw).data with _ | ⟨c, cs⟩
      · exfalso
        apply hz
        have hmk : pyStrip raw = String.mk (pyStrip raw).data := rfl
        rw [hmk, hs]
      · rw [hs] at hd
        simp [hd]
    unfold hash_text_key
    simp [hz, hraw]
  · rfl

theorem c8_numeral_short_circuit_witness :
    hash_text_key noHashImpls "   " = none ∧
    hash_text_key noHashImpls " 123 " = some "123" ∧
    hash_text_key noHashImpls "123" = some "123" :=
  ⟨(c8_numeral_short_circuit noHashImpls "   ").1 rfl,
   (c8_numeral_short_circuit noHashImpls " 123 ").2.1 (by decide) (by decide),
   (c8_numeral_short_circuit noHashImpls "123").2.2⟩

/-- C6 counterexample: the store holds a text (the empty string) for the
requested language EN and key 123, yet the fallback lookup returns the
CHS text instead of that primary-language text, because `if text:` treats
the empty string as a miss. -/
theorem c6_counterexample :
    exEmptyTextStore "EN" "123" = some "" ∧
    resolve_text_with_fallback noHashImpls exEmptyTextStore "EN" (some "123") none =
      some "chs" ∧
    ¬ ((some "chs" : Option String) = some "") := by
  refine ⟨rfl, rfl, by decide⟩

theorem truthyText_some {t : String} (hne : t ≠ "") : truthyText (some t) = true := by
  have hie : t.isEmpty = false := by
    cases hb : t.isEmpty
    · rfl
    · exact absurd ((String.isEmpty_iff t).mp hb) hne
  simp [truthyText, hie]

/-- C6 (amended): the fallback lookup tries the requested language first,
then CHS, then EN, and returns the supplied fallback exactly when no
language in the chain yields a Python-truthy (present and non-empty)
text; whenever the primary language resolves to a non-empty text, that
text is returned.  Amendment: an empty stored text is treated as a miss,
so only non-empty stored texts short-circuit the chain. -/
theorem c6_fallback_chain (impls : HashImpls) (store : TextStore) (lang : String)
    (raw_key : Option String) (fallback : Option String) :
    (∀ t, resolve_text_from_key impls store lang raw_key = some t → t ≠ "" →
      resolve_text_with_fallback impls store lang raw_key fallback = some t) ∧
    (∀ t, truthyText (resolve_text_from_key impls store lang raw_key) = false →
      lang ≠ "CHS" →
      resolve_text_from_key impls store "CHS" raw_key = some t → t ≠ "" →
      resolve_text_with_fallback impls store lang raw_key fallback = some t) ∧
    (∀ t, truthyText (resolve_text_from_key impls store lang raw_key) = false →
      truthyText (resolve_text_from_key impls store "CHS" raw_key) = false →
      lang ≠ "EN" →
      resolve_text_from_key impls store "EN" raw_key = some t → t ≠ "" →
      resolve_text_with_fallback impls store lang raw_key fallback = some t) ∧
    (truthyText (resolve_text_from_key impls store lang raw_key) = false →
      truthyText (resolve_text_from_key impls store "CHS" raw_key) = false →
      truthyText (resolve_text_from_key impls store "EN" raw_key) = false →
      resolve_text_with_fallback impls store lang raw_key fallback = fallback) := by
  refine ⟨?_, ?_, ?_, ?_⟩
  · intro t h1 hne
    have ht : truthyText (resolve_text_from_key impls store lang raw_key) = true := by
      rw [h1]
      exact truthyText_some hne
    unfold resolve_text_with_fallback
    rw [if_pos ht, h1]
  · intro t h1 hlang h2 hne
    have ht : truthyText (if lang = "CHS" then none else resolve_text_from_key impls store "CHS" raw_key) = true := by
      rw [if_neg hlang, h2]
      exact truthyText_some hne
    unfold resolve_text_with_fallback
    rw [if_neg (by simp [h1]), if_pos ht, if_neg hlang, h2]
  · intro t h1 hchs hlang h3 hne
    have ht2 : truthyText (if lang = "CHS" then none else resolve_text_from_key impls store "CHS" raw_key) = false := by
      by_cases hl : lang = "CHS"
      · rw [if_pos hl]; rfl
      · rw [if_neg hl]; exact hchs
    have ht3 : truthyText (if lang = "EN" then none else resolve_text_from_key impls store "EN" raw_key) = true := by
      rw [if_neg hlang, h3]
      exact truthyText_some hne
    unfold resolve_text_with_fallback
    rw [if_neg (by simp [h1]), if_neg (by simp [ht2]), if_pos ht3, if_neg hlang, h3]
  · intro h1 hchs hen
    have ht2 : truthyText (if lang = "CHS" then none else resolve_text_from_key impls store "CHS" raw_key) = false := by
      by_cases hl : lang = "CHS"
      · rw [if_pos hl]; rfl
      · rw [if_neg hl]; exact hchs
    have ht3 : truthyText (if lang = "EN" then none else resolve_text_from_key impls store "EN" raw_key) = false := by
      by_cases hl : lang = "EN"
      · rw [if_pos hl]; rfl
      · rw [if_neg hl]; exact hen
    unfold resolve_text_with_fallback
    rw [if_neg (by simp [h1]), if_neg (by simp [ht2]), if_neg (by simp [ht3])]

theorem c6_fallback_chain_witness :
    resolve_text_with_fallback noHashImpls exJpStore "JP" (some "123") none =
      some "jp-text" ∧
    resolve_text_with_fallback noHashImpls exJpStore "KR" (some "999") (some "fb") =
      some "fb" :=
  ⟨((c6_fallback_chain noHashImpls exJpStore "JP" (some "123") none).1
      "jp-text" rfl (by decide)),
   ((c6_fallback_chain noHashImpls exJpStore "KR" (some "999") (some "fb")).2.2.2
      rfl rfl rfl)⟩

/-- C4: the worked template example.  The [i] format rounds 150.4 down to
the integer 150, and the percent suffix scales 0.35 by 100 before
formatting and appends a literal percent sign, giving 35%. -/
theorem c4_template_example :
    apply_param_template (some ("Deals #1[i] damage and #2% chance to stun."))
      (some (Json.arr [Json.num (752/5), Json.num (7/20)])) =
    some ("Deals 150 damage and 35% chance to stun.") := by
  with_unfolding_all rfl

theorem bracketScan_text {r1 : List Char} {fmt : Option (List Char)} {r2 : List Char}
    (h : bracketScan r1 = (fmt, r2)) : fmtText fmt ++ r2 = r1 := by
  unfold bracketScan at h
  split at h
  · injection h with h1 h2
    subst h1; subst h2
    rfl
  · rename_i c r
    split at h
    · rename_i hc
      split at h
      · injection h with h1 h2
        subst h1; subst h2
        rfl
      · split at h
        · injection h with h1 h2
          subst h1; subst h2
          rfl
        · rename_i d rr heq
          split at h
          · rename_i hd
            injection h with h1 h2
            subst h1; subst h2
            subst hc; subst hd
            simp only [fmtText, List.cons_append, List.append_assoc, List.singleton_append,
              List.nil_append, List.cons.injEq, true_and]
            rw [← heq, List.takeWhile_append_dropWhile]
          · injection h with h1 h2
            subst h1; subst h2
            rfl
    · injection h with h1 h2
      subst h1; subst h2
      rfl

theorem parseTok_text {rest : List Char} {t : ParamTok} {rest2 : List Char}
    (h : parseTok rest = some (t, rest2)) : tokTail t ++ rest2 = rest := by
  rw [parseTok] at h
  by_cases hds : (rest.takeWhile isDigitChar).isEmpty
  · simp [hds] at h
  · rw [if_neg hds] at h
    rcases hbs : bracketScan (rest.dropWhile isDigitChar) with ⟨fmt, r2⟩
    have hbt : fmtText fmt ++ r2 = rest.dropWhile isDigitChar := bracketScan_text hbs
    have hsplit : rest.takeWhile isDigitChar ++ rest.dropWhile isDigitChar = rest :=
      List.takeWhile_append_dropWhile isDigitChar rest
    rw [hbs] at h
    rcases r2 with _ | ⟨c, r3⟩ <;> dsimp only at h
    · simp only [Option.some.injEq, Prod.mk.injEq] at h
      rw [← h.1, ← h.2, tokTail]
      have hbt2 : fmtText fmt = rest.dropWhile isDigitChar := by simpa using hbt
      show rest.takeWhile isDigitChar ++ fmtText fmt ++ [] ++ [] = rest
      simp only [List.append_nil]
      rw [hbt2, hsplit]
    · by_cases hc : c = '%'
      · rw [if_pos hc] at h
        simp only [Option.some.injEq, Prod.mk.injEq] at h
        rw [← h.1, ← h.2, tokTail]
        show rest.takeWhile isDigitChar ++ fmtText fmt ++ ['%'] ++ r3 = rest
        rw [List.append_assoc, List.append_assoc]
        show rest.takeWhile isDigitChar ++ (fmtText fmt ++ ('%' :: r3)) = rest
        rw [← hc, hbt, hsplit]
      · rw [if_neg hc] at h
        simp only [Option.some.injEq, Prod.mk.injEq] at h
        rw [← h.1, ← h.2, tokTail]
        show rest.takeWhile isDigitChar ++ fmtText fmt ++ [] ++ (c :: r3) = rest
        simp only [List.append_nil]
        rw [List.append_assoc, hbt, hsplit]

theorem parseTok_length {rest : List Char} {t : ParamTok} {rest2 : List Char}
    (h : parseTok rest = some (t, rest2)) : rest2.length ≤ rest.length := by
  have hl := congrArg List.length (parseTok_text h)
  simp only [List.length_append] at hl
  omega

theorem scanTemplate_text : ∀ (fuel : ℕ) (cs : List Char), cs.length ≤ fuel →
    (((scanTemplate fuel cs).map pieceText).flatten) = cs := by
  intro fuel
  induction fuel with
  | zero =>
    intro cs h
    have hnil : cs = [] := List.length_eq_zero.mp (Nat.le_zero.mp h)
    subst hnil
    rfl
  | succ n ih =>
    intro cs h
    rcases cs with _ | ⟨c, rest⟩
    · rfl
    · rw [scanTemplate]
      by_cases hc : c = '#'
      · rw [if_pos hc]
        rcases hp : parseTok rest with _ | ⟨t, rest2⟩
        · simp only [List.map_cons, List.flatten_cons, pieceText]
          rw [ih rest (by simpa using h), hc]
          rfl
        · simp only [List.map_cons, List.flatten_cons, pieceText, tokText]
          have hr2 : rest2.length ≤ n := le_trans (parseTok_length hp) (by simpa using h)
          rw [ih rest2 hr2, hc, List.cons_append, parseTok_text hp]
      · rw [if_neg hc]
        simp only [List.map_cons, List.flatten_cons, pieceText]
        rw [ih rest (by simpa using h)]
        rfl

/-- C5: a placeholder token whose 1-based index is 0 or exceeds the
parameter count renders as its own source text, character for character;
the template is tokenized so that the concatenated source text of the
pieces is exactly the template (nothing is lost or reordered), and in
particular the worked example renders unchanged.  All rendering
functions are total, so rendering never raises. -/
theorem c5_out_of_range_tokens (t : ParamTok) (params : List ℚ)
    (h : digitsToNat t.digits = 0 ∨ params.length < digitsToNat t.digits) :
    replTok params t = tokText t ∧
    (∀ cs : List Char, ((scanTemplate cs.length cs).map pieceText).flatten = cs) ∧
    apply_param_template (some ("#9 unused")) (some (Json.arr [Json.num 1, Json.num 2])) =
      some ("#9 unused") := by
  refine ⟨?_, ?_, ?_⟩
  · rw [replTok]
    rw [if_pos ?_]
    rcases h with h0 | hgt
    · left
      omega
    · right
      omega
  · intro cs
    exact scanTemplate_text cs.length cs (le_refl _)
  · with_unfolding_all rfl

theorem c5_out_of_range_tokens_witness :
    replTok [1, 2] ⟨['9'], none, false⟩ = tokText ⟨['9'], none, false⟩ ∧
    (∀ cs : List Char, ((scanTemplate cs.length cs).map pieceText).flatten = cs) ∧
    apply_param_template (some ("#9 unused")) (some (Json.arr [Json.num 1, Json.num 2])) =
      some ("#9 unused") :=
  c5_out_of_range_tokens ⟨['9'], none, false⟩ [1, 2] (Or.inr (by decide))

/-- C10: the [i] integer format is Python round, which is
round-half-to-even: a scaled value exactly halfway between two integers
renders as the even neighbour, so the parameter 2.5 renders as 2 while
3.5 renders as 4 under the template hash-1-bracket-i. -/
theorem c10_round_half_even :
    apply_param_template (some ("#1[i]")) (some (Json.arr [Json.num (5/2)])) = some ("2") ∧
    apply_param_template (some ("#1[i]")) (some (Json.arr [Json.num (7/2)])) = some ("4") ∧
    ∀ n : ℤ, pyRoundHalfEven ((n : ℚ) + 1/2) = if n % 2 = 0 then n else n + 1 := by
  refine ⟨by with_unfolding_all rfl, by with_unfolding_all rfl, ?_⟩
  intro n
  have hfl : ratFloor ((n : ℚ) + 1/2) = n := by
    rw [ratFloor_eq_floor, add_comm, Int.floor_add_int]
    norm_num
  rw [pyRoundHalfEven, hfl]
  have hfr : (n : ℚ) + 1/2 - (n : ℚ) = 1/2 := by ring
  rw [hfr]
  norm_num

/-- C1 counterexample: the avatar_rank row carries the non-empty hash
field trigger_hash = 42, yet 42 is not in the computed closure —
gather_module_hashes reads only name_raw, desc_raw and rank_ability_json
from avatar_rank, and no SQL insert covers trigger_hash. -/
theorem c1_counterexample :
    exTriggerDb.avatar_rank.map (fun r => r.trigger_hash) = [some "42"] ∧
    "42" ≠ "" ∧
    ¬ ("42" ∈ avatar_needed_hashes noHashImpls exTriggerDb) := by
  refine ⟨rfl, by decide, by decide⟩

/-- C1 (amended): the avatar module closure covers every non-empty hash
field on avatar rows (name_hash, full_name_hash) and avatar_skill rows
(name_hash, desc_hash, tag_hash), and for avatar_rank rows it covers the
resolved address of every non-empty name_raw/desc_raw key and of every
non-empty rank-ability key; the avatar_promotion table has no hash
columns.  Amendment: the claim fails for avatar_rank.trigger_hash,
which no collector reads — it is excluded here (the serve-time avatar
read path never dereferences it). -/
theorem c1_avatar_closure (impls : HashImpls) (db : AvatarModuleDB) :
    (∀ r ∈ db.avatar, ∀ h : String, h ≠ "" →
      (r.name_hash = some h ∨ r.full_name_hash = some h) →
      h ∈ avatar_needed_hashes impls db) ∧
    (∀ r ∈ db.avatar_skill, ∀ h : String, h ≠ "" →
      (r.name_hash = some h ∨ r.desc_hash = some h ∨ r.tag_hash = some h) →
      h ∈ avatar_needed_hashes impls db) ∧
    (∀ r ∈ db.avatar_rank, ∀ k a : String, k ≠ "" →
      (r.name_raw = some k ∨ r.desc_raw = some k) →
      hash_text_key impls k = some a →
      a ∈ avatar_needed_hashes impls db) ∧
    (∀ r ∈ db.avatar_rank, ∀ k a : String,
      k ∈ rankAbilityStrings r.rank_ability → k ≠ "" →
      hash_text_key impls k = some a →
      a ∈ avatar_needed_hashes impls db) := by
  refine ⟨?_, ?_, ?_, ?_⟩
  · intro r hr h hne hcase
    unfold avatar_needed_hashes
    simp only [List.mem_append]
    rcases hcase with hn | hf
    · refine Or.inl (Or.inl (Or.inl (Or.inl (Or.inl ?_))))
      rw [sqlHashColumn, List.mem_filter]
      exact ⟨List.mem_filterMap.mpr ⟨r, hr, hn⟩, by simp [hne]⟩
    · refine Or.inl (Or.inl (Or.inl (Or.inl (Or.inr ?_))))
      rw [sqlHashColumn, List.mem_filter]
      exact ⟨List.mem_filterMap.mpr ⟨r, hr, hf⟩, by simp [hne]⟩
  · intro r hr h hne hcase
    unfold avatar_needed_hashes
    simp only [List.mem_append]
    rcases hcase with hn | hd | ht
    · refine Or.inl (Or.inl (Or.inl (Or.inr ?_)))
      rw [sqlHashColumn, List.mem_filter]
      exact ⟨List.mem_filterMap.mpr ⟨r, hr, hn⟩, by simp [hne]⟩
    · refine Or.inl (Or.inl (Or.inr ?_))
      rw [sqlHashColumn, List.mem_filter]
      exact ⟨List.mem_filterMap.mpr ⟨r, hr, hd⟩, by simp [hne]⟩
    · refine Or.inl (Or.inr ?_)
      rw [sqlHashColumn, List.mem_filter]
      exact ⟨List.mem_filterMap.mpr ⟨r, hr, ht⟩, by simp [hne]⟩
  · intro r hr k a hkne hcase hhash
    unfold avatar_needed_hashes
    simp only [List.mem_append]
    refine Or.inr ?_
    unfold gather_avatar_hashes
    simp only [List.mem_append]
    rcases hcase with hn | hd
    · refine Or.inl (Or.inl (Or.inl (Or.inl ?_)))
      refine List.mem_filterMap.mpr ⟨r, hr, ?_⟩
      rw [hn, add_hash_if_any.eq_def]
      simp only [if_neg hkne]
      exact hhash
    · refine Or.inl (Or.inl (Or.inl (Or.inr ?_)))
      refine List.mem_filterMap.mpr ⟨r, hr, ?_⟩
      rw [hd, add_hash_if_any.eq_def]
      simp only [if_neg hkne]
      exact hhash
  · intro r hr k a hk hkne hhash
    unfold avatar_needed_hashes
    simp only [List.mem_append]
    refine Or.inr ?_
    unfold gather_avatar_hashes
    simp only [List.mem_append]
    refine Or.inl (Or.inl (Or.inr ?_))
    refine List.mem_flatten.mpr
      ⟨(rankAbilityStrings r.rank_ability).filterMap (fun s => add_hash_if_any impls (some s)),
        List.mem_map.mpr ⟨r, hr, rfl⟩, ?_⟩
    refine List.mem_filterMap.mpr ⟨k, hk, ?_⟩
    rw [add_hash_if_any.eq_def]
    simp only [if_neg hkne]
    exact hhash

theorem c1_avatar_closure_witness :
    "111" ∈ avatar_needed_hashes noHashImpls exAvatarDb ∧
    "333" ∈ avatar_needed_hashes noHashImpls exAvatarDb ∧
    "444" ∈ avatar_needed_hashes noHashImpls exAvatarDb ∧
    "555" ∈ avatar_needed_hashes noHashImpls exAvatarDb :=
  ⟨(c1_avatar_closure noHashImpls exAvatarDb).1 exAvatarRow (by simp [exAvatarDb])
      "111" (by decide) (Or.inl rfl),
   (c1_avatar_closure noHashImpls exAvatarDb).2.1 exSkillRow (by simp [exAvatarDb])
      "333" (by decide) (Or.inr (Or.inl rfl)),
   (c1_avatar_closure noHashImpls exAvatarDb).2.2.1 exRankKeyed (by simp [exAvatarDb])
      "444" "444" (by decide) (Or.inl rfl) rfl,
   (c1_avatar_closure noHashImpls exAvatarDb).2.2.2 exRankKeyed (by simp [exAvatarDb])
      "555" "555" (by decide) (by decide) rfl⟩

theorem dedupRows_subset {rows : List RefRow} {seen : List (String × Option String × Option ℤ ×
    Option String × Option String × Option ℤ × Option String × Option String)} {r : RefRow}
    (h : r ∈ dedupRows rows seen) : r ∈ rows := by
  induction rows generalizing seen with
  | nil => cases h
  | cons a rest ih =>
    rw [dedupRows] at h
    by_cases hs : rowKey a ∈ seen
    · rw [if_pos hs] at h
      exact List.mem_cons_of_mem a (ih h)
    · rw [if_neg hs] at h
      rcases List.mem_cons.mp h with heq | hmem
      · exact heq ▸ List.mem_cons_self a rest
      · exact List.mem_cons_of_mem a (ih hmem)

theorem filterKey_nil {rest : List (String × Json)} {k : String}
    (h : (rest.map (fun kv => kv.1)).any (fun x => x == k) = false) :
    rest.filter (fun kv => kv.1 == k) = [] := by
  induction rest with
  | nil => rfl
  | cons kv tl ih =>
    rw [List.map_cons, List.any_cons, Bool.or_eq_false_iff] at h
    rw [List.filter_cons, if_neg (by simp [h.1]), ih h.2]

theorem jLookup_nodup {fields : List (String × Json)} {k : String} {v : Json}
    (hnd : nodupKeys (fields.map (fun kv => kv.1)) = true)
    (hmem : (k, v) ∈ fields) : jLookup fields k = some v := by
  induction fields with
  | nil => cases hmem
  | cons kv rest ih =>
    rw [List.map_cons, nodupKeys, Bool.and_eq_true, Bool.not_eq_eq_eq_not, Bool.not_true] at hnd
    rcases List.mem_cons.mp hmem with heq | hmem2
    · rw [jLookup, List.filter_cons, if_pos (by simp [← heq]), filterKey_nil (by rw [← heq] at hnd; exact hnd.1)]
      rw [← heq]
      rfl
    · have hne : ¬ (kv.1 == k) = true := by
        intro hbeq
        have hk : kv.1 = k := by simpa using hbeq
        have : ∃ x ∈ rest.map (fun kv => kv.1), (x == kv.1) = true := by
          refine ⟨k, ?_, by simp [hk]⟩
          exact List.mem_map.mpr ⟨(k, v), hmem2, rfl⟩
        rw [← List.any_eq_true] at this
        rw [this] at hnd
        exact Bool.noConfusion hnd.1
      rw [jLookup, List.filter_cons, if_neg hne]
      exact ih hnd.2 hmem2

theorem pyEnumerate_mem {α : Type} {items : List α} {i j : ℕ} {v : α}
    (h : (j, v) ∈ pyEnumerate i items) : i ≤ j ∧ items[j - i]? = some v := by
  induction items generalizing i with
  | nil => cases h
  | cons a rest ih =>
    rw [pyEnumerate] at h
    rcases List.mem_cons.mp h with heq | hmem
    · have h1 : j = i := congrArg Prod.fst heq
      have h2 : v = a := congrArg Prod.snd heq
      subst h1; subst h2
      simp
    · obtain ⟨hij, hg⟩ := ih hmem
      refine ⟨by omega, ?_⟩
      have hji : j - i = (j - (i + 1)) + 1 := by omega
      rw [hji, List.getElem?_cons_succ]
      exact hg

theorem chainTagFrom_single (inh : Option String) (node : Json) :
    chainTagFrom inh [node] = tagOrElse (ownTag node) inh := by
  unfold chainTagFrom tagOrElse
  rcases h : ownTag node with _ | t <;> simp [List.filterMap_cons, h]

theorem chainTagFrom_cons (inh : Option String) (node : Json) (ns : List Json) :
    chainTagFrom inh (node :: ns) = chainTagFrom (tagOrElse (ownTag node) inh) ns := by
  unfold chainTagFrom tagOrElse
  rcases h : ownTag node with _ | t
  · simp [List.filterMap_cons, h]
  · simp only [List.filterMap_cons, h]
    rcases hns : ns.filterMap ownTag with _ | ⟨x, xs⟩
    · simp
    · rcases hgl : (x :: xs).getLast? with _ | y
      · rw [List.getLast?_eq_none_iff] at hgl
        cases hgl
      · simp [hgl]

theorem chainTagFrom_none (ns : List Json) : chainTagFrom none ns = chainTag ns := by
  unfold chainTagFrom chainTag
  rcases h : (ns.filterMap ownTag).getLast? with _ | t <;> simp

theorem walkRefs_tags (relPath : String) :
    ∀ (fuel : ℕ) (node : Json) (p0 : List PathStep) (inh : Option String),
      wfJson fuel node = true →
      ∀ row ∈ walkRefs relPath fuel node p0 inh,
        ∃ suffix, row.path = p0 ++ suffix ∧
          nodesAlong node suffix ≠ [] ∧
          row.task_type = chainTagFrom inh (nodesAlong node suffix) := by
  intro fuel
  induction fuel with
  | zero =>
    intro node p0 inh hwf
    rw [wfJson] at hwf
    cases hwf
  | succ n ih =>
    intro node p0 inh hwf row hrow
    match node with
    | .null => cases hrow
    | .bool _ => cases hrow
    | .num _ => cases hrow
    | .str _ => cases hrow
    | .obj fields =>
      rw [wfJson, Bool.and_eq_true] at hwf
      rw [walkRefs] at hrow
      rcases List.mem_append.mp hrow with htop | hrec
      · by_cases hemit : objEmit fields = true
        · rw [if_pos hemit] at htop
          have hr : row = objRow relPath fields p0 (tagOrElse (ownTag (.obj fields)) inh) :=
            List.mem_singleton.mp htop
          refine ⟨[], ?_, by simp [nodesAlong], ?_⟩
          · rw [hr, List.append_nil]
            rfl
          · rw [hr]
            show tagOrElse (ownTag (.obj fields)) inh = chainTagFrom inh (nodesAlong (.obj fields) [])
            rw [nodesAlong, chainTagFrom_single]
        · rw [if_neg hemit] at htop
          cases htop
      · obtain ⟨l, hl, hrl⟩ := List.mem_flatten.mp hrec
        obtain ⟨kv, hkv, hfl⟩ := List.mem_map.mp hl
        rw [← hfl] at hrl
        have hwfv : wfJson n kv.2 = true := by
          have hall := List.all_eq_true.mp hwf.2 kv hkv
          simpa using hall
        obtain ⟨suffix, hpath, hne, htag⟩ :=
          ih kv.2 (p0 ++ [.field kv.1]) (tagOrElse (ownTag (.obj fields)) inh) hwfv row hrl
        have hchild : childAt (.obj fields) (.field kv.1) = some kv.2 := by
          rw [childAt]
          exact jLookup_nodup hwf.1 (by simpa using hkv)
        have hna : nodesAlong (.obj fields) (.field kv.1 :: suffix) =
            Json.obj fields :: nodesAlong kv.2 suffix := by
          rw [nodesAlong, hchild]
        refine ⟨.field kv.1 :: suffix, ?_, ?_, ?_⟩
        · rw [hpath, List.append_assoc]
          rfl
        · rw [hna]
          simp
        · rw [hna, chainTagFrom_cons]
          exact htag
    | .arr items =>
      rw [wfJson] at hwf
      rw [walkRefs] at hrow
      obtain ⟨l, hl, hrl⟩ := List.mem_flatten.mp hrow
      obtain ⟨iv, hiv, hfl⟩ := List.mem_map.mp hl
      rw [← hfl] at hrl
      obtain ⟨hle, hget⟩ := @pyEnumerate_mem _ items 0 iv.1 iv.2 (by simpa using hiv)
      rw [Nat.sub_zero] at hget
      have hmem2 : iv.2 ∈ items := List.getElem?_mem hget
      have hwfv : wfJson n iv.2 = true := by
        have hall := List.all_eq_true.mp hwf iv.2 hmem2
        simpa using hall
      obtain ⟨suffix, hpath, hne, htag⟩ :=
        ih iv.2 (p0 ++ [.index iv.1]) inh hwfv row hrl
      have hchild : childAt (.arr items) (.index iv.1) = some iv.2 := by
        rw [childAt]
        exact hget
      have hna : nodesAlong (.arr items) (.index iv.1 :: suffix) =
          Json.arr items :: nodesAlong iv.2 suffix := by
        rw [nodesAlong, hchild]
      refine ⟨.index iv.1 :: suffix, ?_, ?_, ?_⟩
      · rw [hpath, List.append_assoc]
        rfl
      · rw [hna]
        simp
      · rw [hna, chainTagFrom_cons]
        show row.task_type = chainTagFrom (tagOrElse none inh) (nodesAlong iv.2 suffix)
        exact htag

theorem walkRefs_wf_fuel (relPath : String) :
    ∀ (f1 : ℕ) (f2 : ℕ) (node : Json) (p : List PathStep) (inh : Option String),
      wfJson f1 node = true → wfJson f2 node = true →
      walkRefs relPath f1 node p inh = walkRefs relPath f2 node p inh := by
  intro f1
  induction f1 with
  | zero =>
    intro f2 node p inh h1
    rw [wfJson] at h1
    cases h1
  | succ n ih =>
    intro f2 node p inh h1 h2
    rcases f2 with _ | m
    · rw [wfJson] at h2
      cases h2
    · match node with
      | .null => rfl
      | .bool _ => rfl
      | .num _ => rfl
      | .str _ => rfl
      | .obj fields =>
        rw [wfJson, Bool.and_eq_true] at h1 h2
        rw [walkRefs, walkRefs]
        congr 1
        congr 1
        apply List.map_congr_left
        intro kv hkv
        exact ih m kv.2 _ _
          (by simpa using List.all_eq_true.mp h1.2 kv hkv)
          (by simpa using List.all_eq_true.mp h2.2 kv hkv)
      | .arr items =>
        rw [wfJson] at h1 h2
        rw [walkRefs, walkRefs]
        congr 1
        apply List.map_congr_left
        intro iv hiv
        have hmem2 : iv.2 ∈ items := by
          obtain ⟨hle, hget⟩ := @pyEnumerate_mem _ items 0 iv.1 iv.2 (by simpa using hiv)
          rw [Nat.sub_zero] at hget
          exact List.getElem?_mem hget
        exact ih m iv.2 _ _
          (by simpa using List.all_eq_true.mp h1 iv.2 hmem2)
          (by simpa using List.all_eq_true.mp h2 iv.2 hmem2)

/-- Any two sufficient fuels give the same extraction result. -/
theorem extract_reference_rows_fuel_irrelevant (relPath : String) (f1 f2 : ℕ) (doc : Json)
    (h1 : wfJson f1 doc = true) (h2 : wfJson f2 doc = true) :
    extract_reference_rows relPath f1 doc = extract_reference_rows relPath f2 doc := by
  unfold extract_reference_rows
  rw [walkRefs_wf_fuel relPath f1 f2 doc [] none h1 h2]

/-- C9: for every well-formed document (distinct keys per object, fuel
covering the depth), the type tag recorded on each extracted row equals
the chain tag of the nodes along the row's own path from the root: the
nearest ancestor-or-self object with a string $type field.  Sibling tags
cannot leak (only the row's own root chain is consulted) and arrays are
transparent (their own tag is none, so they never change the inherited
tag). -/
theorem c9_type_tag_inheritance (relPath : String) (fuel : ℕ) (doc : Json)
    (hwf : wfJson fuel doc = true) :
    ∀ row ∈ extract_reference_rows relPath fuel doc,
      nodesAlong doc row.path ≠ [] ∧
      row.task_type = chainTag (nodesAlong doc row.path) := by
  intro row hrow
  have hw : row ∈ walkRefs relPath fuel doc [] none := dedupRows_subset hrow
  obtain ⟨suffix, hpath, hne, htag⟩ := walkRefs_tags relPath fuel doc [] none hwf row hw
  have hsfx : row.path = suffix := by simpa using hpath
  rw [hsfx]
  exact ⟨hne, by rw [htag, chainTagFrom_none]⟩

theorem c9_type_tag_inheritance_witness :
    wfJson 10 exRefDoc = true ∧
    (extract_reference_rows ("Story/Mission/x.json") 10 exRefDoc).map
      (fun r => r.task_type) = [some ("RootType"), some ("SubType"), some ("RootType")] ∧
    (∀ row ∈ extract_reference_rows ("Story/Mission/x.json") 10 exRefDoc,
      nodesAlong exRefDoc row.path ≠ [] ∧
      row.task_type = chainTag (nodesAlong exRefDoc row.path)) :=
  ⟨by decide, by decide,
   c9_type_tag_inheritance ("Story/Mission/x.json") 10 exRefDoc (by decide)⟩
